import Mathlib

/-!
Verification of the bytestring_splitter library (`bytestring_splitter/__init__.py`)
against its natural-language specification.

Byte strings are modelled as `List Nat` (one entry per byte).  Machine
integers are `Nat` with explicit bounds (`256 ^ w`) where Python's
`int.to_bytes` would overflow.  Fallible code returns `Except`/`Option`.

Modelled declaration forms are the ones the specification and its testable
properties exercise: bare integers, the `VariableLengthBytestring` class
used as a field or as a variable-length marker, and `(class, length)`
tuples with `bytes` or `VariableLengthBytestring` as the class.  The
`partial`/`single` call modes, nested sub-splitters and the msgpack
remainder codec (an external dependency, out of scope per the spec) are
not exercised by the verified properties and are not modelled.
-/

deriving instance DecidableEq for Except

namespace BytestringSplitterModel

/-- `VARIABLE_HEADER_LENGTH = 4` from the source. -/
def VARIABLE_HEADER_LENGTH : Nat := 4

/-- Big-endian interpretation of a byte list, as in Python's
`int.from_bytes(bs, "big")`.  Accepts any length, including fewer than
the nominal width (Python does the same). -/
def fromBytesBE (bs : List Nat) : Nat :=
  bs.foldl (fun acc b => acc * 256 + b) 0

/-- Big-endian encoding of `n` into exactly `w` bytes, the value part of
Python's `n.to_bytes(w, "big")` (mathematically `n % 256 ^ w`). -/
def toBytesBE (w : Nat) (n : Nat) : List Nat :=
  match w with
  | 0 => []
  | w' + 1 => toBytesBE w' (n / 256) ++ [n % 256]

/-- Python's `n.to_bytes(w, "big")`: raises `OverflowError` when
`n ≥ 256 ^ w`, modelled as `none`. -/
def pyToBytes (w : Nat) (n : Nat) : Option (List Nat) :=
  if n < 256 ^ w then some (toBytesBE w n) else none

theorem toBytesBE_length (w n : Nat) : (toBytesBE w n).length = w := by
  induction w generalizing n with
  | zero => rfl
  | succ w' ih => simp [toBytesBE, ih]

theorem fromBytesBE_append_singleton (xs : List Nat) (b : Nat) :
    fromBytesBE (xs ++ [b]) = fromBytesBE xs * 256 + b := by
  simp [fromBytesBE, List.foldl_append]

theorem fromBytesBE_toBytesBE (w n : Nat) (h : n < 256 ^ w) :
    fromBytesBE (toBytesBE w n) = n := by
  induction w generalizing n with
  | zero =>
    simp [pow_zero] at h
    simp [toBytesBE, fromBytesBE, h]
  | succ w' ih =>
    have hdiv : n / 256 < 256 ^ w' := by
      rw [Nat.div_lt_iff_lt_mul (by norm_num)]
      calc n < 256 ^ (w' + 1) := h
        _ = 256 ^ w' * 256 := by ring
    rw [toBytesBE, fromBytesBE_append_singleton, ih _ hdiv]
    omega

/-! ## Data model: message classes, lengths, declarations -/

/-- The field constructors (`message_class`) occurring in the modelled
declaration forms: the built-in `bytes` and `VariableLengthBytestring`. -/
inductive MsgClass where
  | bytes
  | vlb
deriving DecidableEq, Repr

/-- A field length: either a concrete byte count or the
`VariableLengthBytestring` sentinel meaning "read a 4-byte big-endian
length prefix at parse time". -/
inductive MsgLength where
  | fixed (n : Nat)
  | variable
deriving DecidableEq, Repr

/-- One entry of `BytestringSplitter.Message` (the namedtuple
`(name, message_class, length, kwargs)`); the kwargs are empty for every
modelled declaration form and are omitted. -/
structure MessageType where
  name : Option String
  cls : MsgClass
  length : MsgLength
deriving DecidableEq, Repr

/-- How `actually_split` names a field in its overrun error:
by `message_name` if present, else by `message_class`. -/
inductive MessageLabel where
  | byName (s : String)
  | byClass (c : MsgClass)
deriving DecidableEq, Repr

/-- The declaration forms (`message_parameters`) that are modelled:
a bare integer, the class `VariableLengthBytestring`, and a
`(class, length)` tuple. -/
inductive MessageParam where
  | int (n : Nat)
  | vlbClass
  | tuple (cls : MsgClass) (n : Nat)
deriving DecidableEq, Repr

/-- The error outcomes of the modelled operations.  The source raises
several Python exception types; `isSplittingError` below records which of
them are `BytestringSplittingError` (the only type `dispense` catches). -/
inductive SplitError where
  /-- "Wrong number of bytes to constitute message types … - need {}, got {}". -/
  | wrongNumberOfBytes (expected actual : Nat)
  /-- "Not enough bytes to constitute message types … - need {}, got {}". -/
  | notEnoughBytes (expected actual : Nat)
  /-- "Can't split a message with more bytes than the original splittable.
  {} claimed a length of {}". -/
  | overrun (field : MessageLabel) (claimed : Nat)
  /-- `produce_value` wrapping a constructor exception. -/
  | constructionError (name : Option String) (cls : MsgClass)
  /-- `ValueError` from `__init__` on an empty declaration sequence. -/
  | noMessageParameters
  /-- `TypeError` from the `__init__` sanity check (bare class followed by
  a bare int). -/
  | ambiguousLengthArgument
  /-- `AttributeError` escaping `_parse_message_meta` (e.g. `(bytes, 0)`:
  `bytes` has no `expected_bytes_length`). -/
  | noWayToKnowLength
  /-- `TypeError` from `__mul__` on a non-int argument. -/
  | mulTypeError
  /-- `ValueError` from the `VariableLengthBytestring` constructor when the
  payload exceeds the 4-byte length capacity. -/
  | vlbTooLong
  /-- "This does not appear to be a VariableLengthBytestring, or is not the
  correct length." (from `dispense`). -/
  | notVLB
  /-- Model-only: the fuel bound of the `repeat` loop ran out (never happens
  for fuel `≥ len(splittable) + 1`, since each iteration consumes at least
  4 bytes). -/
  | fuelExhausted
deriving DecidableEq, Repr

/-- Which of the modelled errors are `BytestringSplittingError` instances
(as opposed to `ValueError` / `TypeError` / `AttributeError` or the
model-only fuel marker). -/
def SplitError.isSplittingError : SplitError → Bool
  | .wrongNumberOfBytes _ _ => true
  | .notEnoughBytes _ _ => true
  | .overrun _ _ => true
  | .constructionError _ _ => true
  | .notVLB => true
  | _ => false

/-! ## LayoutSpec normalization (`_parse_message_meta`, `_populate_message_types`) -/

/-- `BytestringSplitter._parse_message_meta` on the modelled declaration
forms.
* a bare int `n` is not subscriptable, then `int(n)` succeeds: field
  `(None, bytes, n, {})`;
* the class `VariableLengthBytestring` is not subscriptable, `int(cls)`
  fails, and `cls.expected_bytes_length()` returns the class itself (the
  variable marker): field `(None, VariableLengthBytestring, variable, {})`;
* a tuple `(cls, n)` with `n > 0`: `int(n)` is truthy, field
  `(None, cls, n, {})`;
* a tuple `(cls, 0)`: `int(0)` is falsy, `int(cls)` fails, so the length is
  sought via `cls.expected_bytes_length()` — an `AttributeError` for
  `bytes`, the variable marker for `VariableLengthBytestring`. -/
def parseMessageMeta : MessageParam → Except SplitError MessageType
  | .int n => .ok ⟨none, .bytes, .fixed n⟩
  | .vlbClass => .ok ⟨none, .vlb, .variable⟩
  | .tuple cls n =>
    if n = 0 then
      match cls with
      | .bytes => .error .noWayToKnowLength
      | .vlb => .ok ⟨none, .vlb, .variable⟩
    else .ok ⟨none, cls, .fixed n⟩

/-- `BytestringKwargifier._parse_message_meta`: the declaration is a
`(name, spec)` pair; the name replaces the `None` of the base parse. -/
def parseMessageMetaNamed (item : String × MessageParam) :
    Except SplitError MessageType :=
  (parseMessageMeta item.2).map fun mt => { mt with name := some item.1 }

/-- `total_length` accumulated by `_populate_message_types`: the sum of all
fixed lengths (variable fields contribute nothing). -/
def sumFixedLengths (mts : List MessageType) : Nat :=
  (mts.map fun mt => match mt.length with | .fixed n => n | .variable => 0).sum

/-- `is_variable_length` from `_populate_message_types`. -/
def anyVariable (mts : List MessageType) : Bool :=
  mts.any fun mt => match mt.length with | .variable => true | _ => false

/-- The state a successful `BytestringSplitter.__init__` leaves behind:
the raw declarations, the parsed `message_types`, and the derived
`_length` / `is_variable_length`. -/
structure Splitter where
  messageParameters : List MessageParam
  messageTypes : List MessageType
  lengthTotal : Nat
  isVariableLength : Bool
deriving DecidableEq, Repr

/-- `BytestringSplitter.__init__`: reject an empty declaration sequence,
run `_populate_message_types` (which may itself fail while parsing a
declaration), then the sanity check rejecting a bare non-int/non-tuple
first declaration followed by a bare int second declaration. -/
def mkBytestringSplitter (params : List MessageParam) :
    Except SplitError Splitter :=
  if params = [] then .error .noMessageParameters
  else
    match params.mapM parseMessageMeta with
    | .error e => .error e
    | .ok mts =>
      match params with
      | .vlbClass :: .int _ :: _ => .error .ambiguousLengthArgument
      | _ => .ok ⟨params, mts, sumFixedLengths mts, anyVariable mts⟩

/-- `BytestringKwargifier.__init__` (message-type view): the declarations
come as name→spec pairs; empty pairs are rejected by the same `__init__`
check; the sanity check never fires because every declaration is a pair
(a tuple). -/
def mkKwargifierTypes (pairs : List (String × MessageParam)) :
    Except SplitError (List MessageType) :=
  if pairs = [] then .error .noMessageParameters
  else pairs.mapM parseMessageMetaNamed

/-! ## SplitterEngine core (`actually_split`, `__call__`) -/

/-- How the overrun error labels a field: `message_name` if present, else the
constructor (`message_class`). -/
def labelOf (mt : MessageType) : MessageLabel :=
  match mt.name with
  | some n => .byName n
  | none => .byClass mt.cls

/-- Lines 192–197 of `actually_split`: for a variable-length field, read the
4 bytes at the cursor (a Python slice, so possibly fewer when the buffer is
short) as a big-endian length and advance the cursor by
`VARIABLE_HEADER_LENGTH`.  Returns the now-concrete length and new cursor. -/
def readVariableLength (splittable : List Nat) (cursor : Nat) : Nat × Nat :=
  (fromBytesBE ((splittable.drop cursor).take VARIABLE_HEADER_LENGTH),
   cursor + VARIABLE_HEADER_LENGTH)

/-- The concrete length a field claims at the current cursor, and the cursor
after reading any length prefix. -/
def resolveLength (mt : MessageType) (splittable : List Nat) (cursor : Nat) :
    Nat × Nat :=
  match mt.length with
  | .fixed n => (n, cursor)
  | .variable => readVariableLength splittable cursor

/-- `produce_value` on the modelled constructors:
* `bytes` has no `from_bytes`, so the constructor is `bytes` itself and
  yields the slice unchanged;
* `VariableLengthBytestring(slice)` raises `ValueError` when the slice
  exceeds the 4-byte length capacity — `produce_value` wraps that into a
  `BytestringSplittingError`; otherwise the constructed value is variable
  length and is unwrapped to its `message_as_bytes` payload (the slice). -/
def produceValue (cls : MsgClass) (name : Option String)
    (bytesForThisObject : List Nat) : Except SplitError (List Nat) :=
  match cls with
  | .bytes => .ok bytesForThisObject
  | .vlb =>
    if bytesForThisObject.length < 256 ^ VARIABLE_HEADER_LENGTH then
      .ok bytesForThisObject
    else .error (.constructionError name .vlb)

/-- The per-field loop of `actually_split` (lines 189–234, with
`partial = single = False`): resolve the field's concrete length, check it
against `len(splittable)`, slice `[cursor, cursor+length)`, construct the
value, and append it (all modelled fields are unnamed or live in a list
container, so storage is an append). -/
def splitLoop (splittable : List Nat) :
    List MessageType → Nat → List (List Nat) →
    Except SplitError (List (List Nat) × Nat)
  | [], cursor, acc => .ok (acc, cursor)
  | mt :: rest, cursor, acc =>
    let resolved := resolveLength mt splittable cursor
    let messageLength := resolved.1
    let cursor' := resolved.2
    if messageLength > splittable.length then
      .error (.overrun (labelOf mt) messageLength)
    else
      let bytesForThisObject := (splittable.drop cursor').take messageLength
      match produceValue mt.cls mt.name bytesForThisObject with
      | .error e => .error e
      | .ok value =>
        splitLoop splittable rest (cursor' + messageLength) (acc ++ [value])

/-- `actually_split(splittable, return_remainder, msgpack_remainder,
partial=False, single=False)`: the two up-front length checks (only for
splitters with no variable fields; `_length` is a sum of `Nat`s so the
source's `len(self) is not -1` guard is always true), then the per-field
loop, then `remainder = splittable[cursor:]`. -/
def actuallySplit (s : Splitter) (splittable : List Nat)
    (returnRemainder msgpackRemainder : Bool) :
    Except SplitError (List (List Nat) × List Nat) :=
  if ¬s.isVariableLength ∧ ¬(returnRemainder ∨ msgpackRemainder) ∧
      s.lengthTotal ≠ splittable.length then
    .error (.wrongNumberOfBytes s.lengthTotal splittable.length)
  else if ¬s.isVariableLength ∧ s.lengthTotal > splittable.length then
    .error (.notEnoughBytes s.lengthTotal splittable.length)
  else
    match splitLoop splittable s.messageTypes 0 [] with
    | .error e => .error e
    | .ok (processedObjects, cursor) =>
      .ok (processedObjects, splittable.drop cursor)

/-- `BytestringSplitter.__call__` with `msgpack_remainder = partial =
single = False`: run `actually_split`, then `deal_with_remainder`, which
appends the raw remainder exactly when `return_remainder` is set. -/
def callSplitter (s : Splitter) (splittable : List Nat)
    (returnRemainder : Bool) : Except SplitError (List (List Nat)) :=
  match actuallySplit s splittable returnRemainder false with
  | .error e => .error e
  | .ok (processedObjects, remainder) =>
    .ok (if returnRemainder then processedObjects ++ [remainder]
         else processedObjects)

/-! ## VariableLengthBytestring -/

/-- The state of a constructed `VariableLengthBytestring`:
`message_as_bytes` (the payload); `message_length` and
`message_length_as_bytes` are derived from it. -/
structure VariableLengthBytestring where
  messageAsBytes : List Nat
deriving DecidableEq, Repr

/-- `VariableLengthBytestring.__init__` on a bytes payload: fails
(`OverflowError` → `ValueError`) when the length does not fit the 4-byte
prefix. -/
def mkVLB (message : List Nat) :
    Except SplitError VariableLengthBytestring :=
  if message.length < 256 ^ VARIABLE_HEADER_LENGTH then .ok ⟨message⟩
  else .error .vlbTooLong

/-- `VariableLengthBytestring.__bytes__`:
`message_length_as_bytes + message_as_bytes`. -/
def vlbBytes (v : VariableLengthBytestring) : List Nat :=
  toBytesBE VARIABLE_HEADER_LENGTH v.messageAsBytes.length ++ v.messageAsBytes

/-- The right-hand side of `VariableLengthBytestring.__eq__`: Python casts
`other` with `bytes(...)`, which is the identity on raw bytes but the full
prefix-plus-payload serialization on a wrapped value. -/
inductive EqOperand where
  | vlb (v : VariableLengthBytestring)
  | raw (b : List Nat)
deriving DecidableEq, Repr

/-- `bytes(other)` as used by `__eq__`. -/
def eqOperandBytes : EqOperand → List Nat
  | .vlb v => vlbBytes v
  | .raw b => b

/-- `VariableLengthBytestring.__eq__`:
`self.message_as_bytes == bytes(other)`. -/
def vlbEq (self : VariableLengthBytestring) (other : EqOperand) : Bool :=
  self.messageAsBytes == eqOperandBytes other

/-- The splitter `BytestringSplitter(VariableLengthBytestring)` used by
`dispense` (a single variable-length field, `_length = 0`,
`is_variable_length = True`). -/
def vlbSplitter : Splitter :=
  ⟨[.vlbClass], [⟨none, .vlb, .variable⟩], 0, true⟩

/-- `BytestringSplitter(VariableLengthBytestring).repeat(splittable)`:
keep calling the splitter with `return_remainder=True`, collecting each
call's single value (the splitter declares exactly one field, so the
source's `*message, remainder` unpacking followed by the
`len(message) == 1` unwrap yields the head of the processed objects),
until the remainder is empty.  The `while` loop is modelled with fuel;
each iteration advances the cursor by at least the 4-byte prefix, so fuel
`len(splittable) + 1` never runs out. -/
def repeatVLB : Nat → List Nat → Except SplitError (List (List Nat))
  | 0, _ => .error .fuelExhausted
  | fuel + 1, splittable =>
    match actuallySplit vlbSplitter splittable true false with
    | .error e => .error e
    | .ok (objs, remainder) =>
      let value := objs.headD []
      if remainder = [] then .ok [value]
      else
        match repeatVLB fuel remainder with
        | .error e => .error e
        | .ok rest => .ok (value :: rest)

/-- `VariableLengthBytestring.bundle(collection)`: wrap each item, join the
serializations, wrap the concatenation. -/
def bundle (collection : List (List Nat)) :
    Except SplitError VariableLengthBytestring :=
  match collection.mapM mkVLB with
  | .error e => .error e
  | .ok vbytes => mkVLB ((vbytes.map vlbBytes).flatten)

/-- `VariableLengthBytestring.dispense(bytestring)`: check the outer length
prefix, then split the payload by repeated variable-length parsing; a
`BytestringSplittingError` during that repetition falls back to the whole
payload as the single item. -/
def dispense (bytestring : List Nat) :
    Except SplitError (List (List Nat)) :=
  let messageLength := fromBytesBE (bytestring.take VARIABLE_HEADER_LENGTH)
  let message := bytestring.drop VARIABLE_HEADER_LENGTH
  if messageLength ≠ message.length then .error .notVLB
  else
    match repeatVLB (message.length + 1) message with
    | .ok items => .ok items
    | .error e => if e.isSplittingError then .ok [message] else .error e

/-! ## `__add__` / `__mul__` -/

/-- `BytestringSplitter.__add__`: concatenate the two splitters'
`message_parameters` (a fresh splitter is constructed from them). -/
def bssAdd (a b : List MessageParam) : List MessageParam := a ++ b

/-- The `for i in range(1, times_to_add): new_splitter += self` loop of
`__mul__`, indexed by the number of iterations actually run. -/
def mulGo (params : List MessageParam) : Nat → List MessageParam
  | 0 => params
  | k + 1 => bssAdd (mulGo params k) params

/-- The argument of `__mul__`: a Python int, or anything else. -/
inductive PyMulArg where
  | int (n : Int)
  | notAnInt
deriving DecidableEq, Repr

/-- `BytestringSplitter.__mul__` at the level of declarations: a non-int
argument raises `TypeError`; an int `n` runs the concatenation loop
`range(1, n)` — `(n - 1).toNat` iterations — on `message_parameters`. -/
def bssMul (params : List MessageParam) (t : PyMulArg) :
    Except SplitError (List MessageParam) :=
  match t with
  | .notAnInt => .error .mulTypeError
  | .int n => .ok (mulGo params (n - 1).toNat)

/-! ## StructureChecksumMixin -/

/-- One halving step of the zlib CRC-32 bit loop: shift right, conditionally
xor the reflected polynomial `0xEDB88320`. -/
def crc32Step (crc : Nat) : Nat :=
  if crc % 2 = 1 then (crc / 2) ^^^ 0xEDB88320 else crc / 2

/-- Eight bit-steps of the CRC loop. -/
def crc32Bits : Nat → Nat → Nat
  | 0, crc => crc
  | k + 1, crc => crc32Bits k (crc32Step crc)

/-- Fold one input byte into the CRC state. -/
def crc32Update (crc b : Nat) : Nat := crc32Bits 8 (crc ^^^ b % 256)

/-- `zlib.crc32(data)` with the standard initial/final complement. -/
def crc32 (data : List Nat) : Nat :=
  (data.foldl crc32Update 0xFFFFFFFF) ^^^ 0xFFFFFFFF

/-- `StructureChecksumMixin.HEADER_LENGTH`. -/
def CHECKSUM_HEADER_LENGTH : Nat := 4

/-- The `hash_input` fingerprint of `generate_checksum`: per field,
`b'\xFF\xFF\xFF\xFF'` for the variable marker, else the 4-byte big-endian
field length (Python's `to_bytes`, which overflows past the 4-byte
capacity). -/
def fingerprintEntry (l : MsgLength) : Option (List Nat) :=
  match l with
  | .variable => some [0xFF, 0xFF, 0xFF, 0xFF]
  | .fixed n => pyToBytes VARIABLE_HEADER_LENGTH n

/-- `StructureChecksumMixin.generate_checksum`: hash the concatenated
per-field length fingerprint with CRC-32 and serialize to
`HEADER_LENGTH` bytes.  The source reads only each entry's
`message_length`, so the result is a function of the length column of
`message_types`. -/
def generateChecksum (mts : List MessageType) : Option (List Nat) :=
  match (mts.map fun mt => mt.length).mapM fingerprintEntry with
  | none => none
  | some entries => pyToBytes CHECKSUM_HEADER_LENGTH (crc32 entries.flatten)

/-! ## HeaderMetaDataMixinBase (header chains) -/

/-- Python values carried by header fields (the version int, raw byte
tags); the shapes that occur in the source's mixins. -/
inductive HVal where
  | int (n : Nat)
  | bytes (b : List Nat)
deriving DecidableEq, Repr

/-- Python truthiness of a header value (`0` and `b''` are falsy). -/
def HVal.truthy : HVal → Bool
  | .int n => n ≠ 0
  | .bytes b => b ≠ []

/-- Truthiness of `kwargs.get(tag)` / `getattr(cls, attr, None)`:
a missing attribute is `None`, which is falsy. -/
def truthyOpt : Option HVal → Bool
  | some v => v.truthy
  | none => false

/-- Errors raised by the header machinery (`ValueError` for an
unresolvable value, `OverflowError`/`TypeError` from a serializer). -/
inductive HeaderError where
  | couldNotDetermine (tag : String)
  | serializeFailed (tag : String)
deriving DecidableEq, Repr

/-- One mixin of a header chain: its `METADATA_TAG`, `HEADER_LENGTH`,
`_serialize_metadata` (which may raise — `none`), and the class-level
attributes `_assign_metadata` consults: `_input_<tag>` and `<tag>` looked
up on the mixin class itself. -/
structure HeaderMixin where
  tag : String
  headerLen : Nat
  serialize : HVal → Option (List Nat)
  inputAttr : Option HVal
  classAttr : Option HVal

/-- Keyword arguments of `assign_metadata`, keyed by tag; a missing key is
`none`. -/
def KwArgs : Type := String → Option HVal

/-- The value resolution of `_assign_metadata`:
`kwargs.get(tag) or getattr(cls, '_input_<tag>', None) or
getattr(cls, tag, None)`, followed by `if not data: raise`.  A Python
`or` chain yields its first truthy operand, so the raise fires exactly
when no operand is truthy. -/
def resolveData (m : HeaderMixin) (kw : KwArgs) : Option HVal :=
  if truthyOpt (kw m.tag) then kw m.tag
  else if truthyOpt m.inputAttr then m.inputAttr
  else if truthyOpt m.classAttr then m.classAttr
  else none

/-- `_assign_metadata(some_bytes, **kwargs)` for one mixin: resolve the
value, serialize it, prepend. -/
def assignOne (m : HeaderMixin) (kw : KwArgs) (someBytes : List Nat) :
    Except HeaderError (List Nat) :=
  match resolveData m kw with
  | none => .error (.couldNotDetermine m.tag)
  | some d =>
    match m.serialize d with
    | none => .error (.serializeFailed m.tag)
    | some s => .ok (s ++ someBytes)

/-- The kwargs update performed by `assign_metadata` before each mixin's
`_assign_metadata`: `if hasattr(cls, tag) and not kwargs.get(tag):
kwargs[tag] = getattr(cls, tag)`, where `cls` is the composed engine type
(its attribute for the tag is `composedAttr tag`). -/
def updateKw (composedAttr : KwArgs) (kw : KwArgs) (m : HeaderMixin) :
    KwArgs :=
  if (composedAttr m.tag).isSome && !truthyOpt (kw m.tag) then
    fun t => if t = m.tag then composedAttr m.tag else kw t
  else kw

/-- The loop body of `assign_metadata` over an (already reversed) list of
mixins; the kwargs dict mutation persists across iterations. -/
def assignGo (composedAttr : KwArgs) :
    List HeaderMixin → KwArgs → List Nat → Except HeaderError (List Nat)
  | [], _, someBytes => .ok someBytes
  | m :: rest, kw, someBytes =>
    let kw' := updateKw composedAttr kw m
    match assignOne m kw' someBytes with
    | .error e => .error e
    | .ok someBytes' => assignGo composedAttr rest kw' someBytes'

/-- `assign_metadata(some_bytes, **kwargs)`: iterate the mixins of the
chain in *reverse* declaration order, prepending each serialized header. -/
def assignMetadata (chain : List HeaderMixin) (composedAttr : KwArgs)
    (kw : KwArgs) (someBytes : List Nat) : Except HeaderError (List Nat) :=
  assignGo composedAttr chain.reverse kw someBytes

/-- The loop of `strip_metadata`: drop each mixin's `HEADER_LENGTH` bytes
from the front, in declaration order. -/
def stripGo : List HeaderMixin → List Nat → List Nat
  | [], someBytes => someBytes
  | m :: rest, someBytes => stripGo rest (someBytes.drop m.headerLen)

/-- `strip_metadata(some_bytes)`. -/
def stripMetadata (chain : List HeaderMixin) (someBytes : List Nat) :
    List Nat :=
  stripGo chain someBytes

/-- `VersioningMixin._serialize_metadata`: `value.to_bytes(2, "big")` —
an `OverflowError` past 2 bytes, an attribute error on a non-int. -/
def versionSerialize (v : HVal) : Option (List Nat) :=
  match v with
  | .int n => pyToBytes 2 n
  | .bytes _ => none

/-- A `VersioningMixin`-shaped header mixin with no class-level version. -/
def versioningMixin : HeaderMixin :=
  ⟨"version", 2, versionSerialize, none, none⟩

/-! ## Claim C2: the overrun check -/

/-- C2 (amended): in the per-field loop, when the field's now-concrete
length exceeds the *total* length of the buffer, `actually_split` fails
with the length-overrun error naming the field (by name if present, else
by constructor identity) and the claimed length.  (The source's check on
line 199 is `message_length > len(splittable)` — against the whole
buffer, not the bytes remaining after the cursor.) -/
theorem overrun_checks_total_length (b : List Nat) (mt : MessageType)
    (rest : List MessageType) (cursor : Nat) (acc : List (List Nat))
    (h : (resolveLength mt b cursor).1 > b.length) :
    splitLoop b (mt :: rest) cursor acc =
      .error (.overrun (labelOf mt) (resolveLength mt b cursor).1) := by
  simp only [splitLoop]
  rw [if_pos h]

/-- Witness for `overrun_checks_total_length`: a fixed field of 3 bytes
against an empty buffer. -/
theorem overrun_checks_total_length_witness :
    splitLoop [] [⟨none, .bytes, .fixed 3⟩] 0 [] =
      .error (.overrun (.byClass .bytes) 3) :=
  overrun_checks_total_length [] ⟨none, .bytes, .fixed 3⟩ [] 0 []
    (by decide)

/-- C2 (counterexample): a splitter `(VariableLengthBytestring, (bytes, 3))`
on a 9-byte buffer whose variable field consumes 8 bytes.  The fixed field
then claims 3 bytes while only 1 remains after the cursor, yet the parse
succeeds (with a truncated 1-byte slice) instead of raising the overrun
error the claim requires, because the check compares against the total
buffer length. -/
theorem overrun_remaining_counterexample :
    (do
      let s ← mkBytestringSplitter [.vlbClass, .tuple .bytes 3]
      callSplitter s [0, 0, 0, 4, 9, 9, 9, 9, 7] false) =
    .ok [[9, 9, 9, 9], [7]] := by decide

/-! ## Claim C3: VariableLengthBytestring equality -/

/-- C3 (code evaluation at the failing input): an instance wrapping the
payload `[1]` compares equal to the raw payload, but *not* to another
instance wrapping the same payload — `__eq__` compares
`self.message_as_bytes` against `bytes(other)`, which for a wrapped
operand includes the 4-byte length prefix.  The spec's payload-only
equality fails (it is not even reflexive). -/
theorem vlbEq_wrapped_operand_eval :
    vlbEq ⟨[1]⟩ (.vlb ⟨[1]⟩) = false ∧ vlbEq ⟨[1]⟩ (.raw [1]) = true := by
  decide

/-! ## Claim C7: `__mul__` -/

theorem flatten_replicate_succ {α : Type} (p : List α) (n : Nat) :
    (List.replicate (n + 1) p).flatten = (List.replicate n p).flatten ++ p := by
  induction n with
  | zero => simp
  | succ k ih =>
    calc (List.replicate (k + 1 + 1) p).flatten
        = p ++ (List.replicate (k + 1) p).flatten := by
          rw [List.replicate_succ, List.flatten_cons]
      _ = p ++ ((List.replicate k p).flatten ++ p) := by rw [ih]
      _ = (p ++ (List.replicate k p).flatten) ++ p := by
          rw [List.append_assoc]
      _ = (List.replicate (k + 1) p).flatten ++ p := by
          rw [List.replicate_succ, List.flatten_cons]

theorem mulGo_eq_flatten_replicate (params : List MessageParam) (k : Nat) :
    mulGo params k = (List.replicate (k + 1) params).flatten := by
  induction k with
  | zero => simp [mulGo]
  | succ k' ih =>
    rw [mulGo, bssAdd, ih, ← flatten_replicate_succ]

/-- C7 (amended): `s * N` with a positive integer `N` yields the
declarations of `s` repeated `N` times, and `s * N` with a non-integer
fails with a `TypeError`; but an integer `N ≤ 0` does *not* fail — the
`range(1, N)` loop simply runs zero times and the original declarations
are returned unchanged (one copy). -/
theorem mul_repeats_declarations :
    (∀ (params : List MessageParam) (n : Int), 1 ≤ n →
        bssMul params (.int n) =
          .ok (List.replicate n.toNat params).flatten) ∧
    (∀ params : List MessageParam,
        bssMul params .notAnInt = .error .mulTypeError) ∧
    (∀ (params : List MessageParam) (n : Int), n ≤ 0 →
        bssMul params (.int n) = .ok params) := by
  refine ⟨fun params n hn => ?_, fun params => rfl, fun params n hn => ?_⟩
  · rw [bssMul, mulGo_eq_flatten_replicate]
    have : (n - 1).toNat + 1 = n.toNat := by omega
    rw [this]
  · rw [bssMul]
    have : (n - 1).toNat = 0 := by omega
    rw [this, mulGo]

/-- Witness for `mul_repeats_declarations`, exercising all three parts at
concrete inputs (`N = 2`, a non-int, and `N = -1`). -/
theorem mul_repeats_declarations_witness :
    bssMul [.int 7] (.int 2) = .ok [.int 7, .int 7] ∧
    bssMul [.int 7] .notAnInt = .error .mulTypeError ∧
    bssMul [.int 7] (.int (-1)) = .ok [.int 7] :=
  ⟨(mul_repeats_declarations.1 [.int 7] 2 (by norm_num)).trans (by decide),
   mul_repeats_declarations.2.1 [.int 7],
   mul_repeats_declarations.2.2 [.int 7] (-1) (by norm_num)⟩

/-- C7 (counterexample): the claim requires `s * N` to fail for every `N`
that is not a positive integer, but `s * 0` succeeds and returns the
splitter's own declarations. -/
theorem mul_zero_counterexample :
    bssMul [.int 1] (.int 0) = .ok [.int 1] := by decide

/-! ## Claim C8: length mismatch on fixed-length splitters -/

/-- C8: a splitter with no variable-length fields, called with both
`return_remainder` and `msgpack_remainder` false on a buffer whose length
differs from the splitter's total fixed length, fails with the
length-mismatch error carrying the expected and actual byte counts. -/
theorem length_mismatch_error (params : List MessageParam) (s : Splitter)
    (b : List Nat) (_hmk : mkBytestringSplitter params = .ok s)
    (hvar : s.isVariableLength = false)
    (hlen : s.lengthTotal ≠ b.length) :
    callSplitter s b false =
      .error (.wrongNumberOfBytes s.lengthTotal b.length) := by
  rw [callSplitter, actuallySplit, if_pos]
  exact ⟨by simp [hvar], by simp, hlen⟩

/-- Witness for `length_mismatch_error`: a 3-byte splitter against an
empty buffer. -/
theorem length_mismatch_error_witness :
    callSplitter ⟨[.int 3], [⟨none, .bytes, .fixed 3⟩], 3, false⟩ [] false =
      .error (.wrongNumberOfBytes 3 0) :=
  length_mismatch_error [.int 3] ⟨[.int 3], [⟨none, .bytes, .fixed 3⟩], 3, false⟩
    [] (by decide) (by decide) (by decide)

/-! ## Claim C9: checksum stability -/

/-- C9: two independently constructed engines (here one positional
splitter and one kwargifier) whose field declarations resolve to the same
sequence of lengths-or-variable-markers produce identical checksum
fingerprints: `generate_checksum` reads only the `message_length` column
of `message_types`. -/
theorem checksum_stability (p1 : List MessageParam)
    (p2 : List (String × MessageParam)) (s1 : Splitter)
    (mts2 : List MessageType)
    (_h1 : mkBytestringSplitter p1 = .ok s1)
    (_h2 : mkKwargifierTypes p2 = .ok mts2)
    (hlen : s1.messageTypes.map (fun mt => mt.length) =
            mts2.map (fun mt => mt.length)) :
    generateChecksum s1.messageTypes = generateChecksum mts2 := by
  rw [generateChecksum, generateChecksum, hlen]

/-- Witness for `checksum_stability`: a splitter `(5, VariableLength)` and
a kwargifier with named fields of the same length shape. -/
theorem checksum_stability_witness :
    generateChecksum [⟨none, .bytes, .fixed 5⟩, ⟨none, .vlb, .variable⟩] =
    generateChecksum
      [⟨some "a", .bytes, .fixed 5⟩, ⟨some "b", .vlb, .variable⟩] :=
  checksum_stability [.int 5, .vlbClass]
    [("a", .tuple .bytes 5), ("b", .vlbClass)]
    ⟨[.int 5, .vlbClass],
     [⟨none, .bytes, .fixed 5⟩, ⟨none, .vlb, .variable⟩], 5, true⟩
    [⟨some "a", .bytes, .fixed 5⟩, ⟨some "b", .vlb, .variable⟩]
    (by decide) (by decide) (by decide)

/-! ## Claim C10: short variable-length prefix reads -/

/-- C10: reading a variable field's 4-byte length prefix never fails when
fewer than 4 bytes remain after the cursor — the available bytes (possibly
none) are interpreted as a shorter big-endian integer; in particular a
single variable-length field parsed from the empty buffer yields the
empty byte string as the field value with an empty remainder. -/
theorem short_variable_prefix_read :
    (∀ (b : List Nat) (cursor : Nat),
        (b.drop cursor).length < VARIABLE_HEADER_LENGTH →
        (readVariableLength b cursor).1 = fromBytesBE (b.drop cursor)) ∧
    actuallySplit vlbSplitter [] false false = .ok ([[]], []) := by
  constructor
  · intro b cursor h
    rw [readVariableLength, List.take_of_length_le (le_of_lt h)]
  · decide

/-- Witness for `short_variable_prefix_read`: a one-byte buffer whose
single byte is read as the whole big-endian length. -/
theorem short_variable_prefix_read_witness :
    (readVariableLength [5] 0).1 = fromBytesBE [5] ∧
    actuallySplit vlbSplitter [] false false = .ok ([[]], []) :=
  ⟨short_variable_prefix_read.1 [5] 0 (by decide),
   short_variable_prefix_read.2⟩

/-! ## Claim C1: fixed-length round trip -/

/-- The splitter `BytestringSplitter(n1, ..., nk)` ends up as after a
successful `__init__` (shown equal to the constructor's output in
`fixed_lengths_roundtrip`). -/
def intSplitter (ns : List Nat) : Splitter :=
  ⟨ns.map MessageParam.int,
   ns.map fun n => ⟨none, .bytes, .fixed n⟩,
   ns.sum, false⟩

/-- The contiguous slices of `b` with the given lengths, in order: the
expected parse result. -/
def contiguousSlices (b : List Nat) : List Nat → List (List Nat)
  | [] => []
  | n :: rest => b.take n :: contiguousSlices (b.drop n) rest

theorem contiguousSlices_map_length (b : List Nat) (ns : List Nat)
    (h : ns.sum ≤ b.length) :
    (contiguousSlices b ns).map List.length = ns := by
  induction ns generalizing b with
  | nil => rfl
  | cons n rest ih =>
    rw [List.sum_cons] at h
    rw [contiguousSlices, List.map_cons]
    have h1 : n ≤ b.length := by omega
    have h2 : rest.sum ≤ (b.drop n).length := by
      rw [List.length_drop]; omega
    rw [ih (b.drop n) h2, List.length_take]
    congr 1
    omega

theorem contiguousSlices_flatten (b : List Nat) (ns : List Nat) :
    (contiguousSlices b ns).flatten = b.take ns.sum := by
  induction ns generalizing b with
  | nil => simp [contiguousSlices]
  | cons n rest ih =>
    rw [contiguousSlices, List.flatten_cons, ih (b.drop n), List.sum_cons,
      List.take_add]

theorem mapM_parseMessageMeta_ints (ns : List Nat) :
    (ns.map MessageParam.int).mapM parseMessageMeta =
      .ok (ns.map fun n => (⟨none, .bytes, .fixed n⟩ : MessageType)) := by
  induction ns with
  | nil => rfl
  | cons n rest ih =>
    rw [List.map_cons, List.map_cons, List.mapM_cons, ih]
    rfl

theorem sumFixedLengths_cons (mt : MessageType) (rest : List MessageType) :
    sumFixedLengths (mt :: rest) =
      (match mt.length with | .fixed n => n | .variable => 0) +
        sumFixedLengths rest := by
  simp [sumFixedLengths]

theorem sumFixedLengths_ints (ns : List Nat) :
    sumFixedLengths (ns.map fun n => (⟨none, .bytes, .fixed n⟩ : MessageType)) =
      ns.sum := by
  induction ns with
  | nil => rfl
  | cons n rest ih =>
    rw [List.map_cons, sumFixedLengths_cons, ih, List.sum_cons]

theorem anyVariable_ints (ns : List Nat) :
    anyVariable (ns.map fun n => (⟨none, .bytes, .fixed n⟩ : MessageType)) =
      false := by
  induction ns with
  | nil => rfl
  | cons n rest ih =>
    rw [anyVariable] at ih ⊢
    rw [List.map_cons, List.any_cons, ih]
    rfl

theorem mkBytestringSplitter_ints (ns : List Nat) (hne : ns ≠ []) :
    mkBytestringSplitter (ns.map MessageParam.int) = .ok (intSplitter ns) := by
  cases ns with
  | nil => exact absurd rfl hne
  | cons n rest =>
    have hm := mapM_parseMessageMeta_ints (n :: rest)
    have hsum := sumFixedLengths_ints (n :: rest)
    have hany := anyVariable_ints (n :: rest)
    rw [List.map_cons] at hm hsum hany
    simp only [mkBytestringSplitter, List.map_cons, hm, hsum, hany,
      intSplitter]
    rw [if_neg (by simp)]

/-- The per-field loop on a list of fixed-length raw-bytes fields whose
total fits in the buffer: every check passes and the slices accumulate in
order. -/
theorem splitLoop_fixed_bytes (b : List Nat) (ns : List Nat) (cursor : Nat)
    (acc : List (List Nat)) (h : cursor + ns.sum ≤ b.length) :
    splitLoop b (ns.map fun n => ⟨none, .bytes, .fixed n⟩) cursor acc =
      .ok (acc ++ contiguousSlices (b.drop cursor) ns, cursor + ns.sum) := by
  induction ns generalizing cursor acc with
  | nil => simp [splitLoop, contiguousSlices]
  | cons n rest ih =>
    rw [List.sum_cons] at h
    have hn : ¬(n > b.length) := by omega
    rw [List.map_cons, splitLoop]
    simp only [resolveLength, produceValue]
    rw [if_neg hn]
    have hrec : cursor + n + rest.sum ≤ b.length := by omega
    rw [ih (cursor + n) (acc ++ [(b.drop cursor).take n]) hrec]
    rw [contiguousSlices]
    have hdrop : (b.drop cursor).drop n = b.drop (cursor + n) := by
      rw [List.drop_drop]
    rw [← hdrop]
    simp [List.append_assoc, Nat.add_assoc]

/-- C1: for a non-empty byte string `b` and positive lengths `n1..nk`
summing to `len(b)`, constructing `BytestringSplitter(n1, ..., nk)`
succeeds, calling it on `b` with no remainder flag returns exactly the
`k` contiguous slices of `b` of those lengths in declaration order, and
the returned slice lengths sum back to `len(b)` (their concatenation is
`b`). -/
theorem fixed_lengths_roundtrip (ns : List Nat) (b : List Nat)
    (hne : ns ≠ []) (_hpos : ∀ n ∈ ns, 0 < n) (hsum : ns.sum = b.length) :
    mkBytestringSplitter (ns.map MessageParam.int) = .ok (intSplitter ns) ∧
    callSplitter (intSplitter ns) b false = .ok (contiguousSlices b ns) ∧
    (contiguousSlices b ns).map List.length = ns ∧
    (contiguousSlices b ns).flatten = b := by
  have hsplit : actuallySplit (intSplitter ns) b false false =
      .ok (contiguousSlices b ns, []) := by
    rw [actuallySplit]
    rw [if_neg (by simp [intSplitter, hsum])]
    rw [if_neg (by simp [intSplitter, hsum])]
    have hloop := splitLoop_fixed_bytes b ns 0 [] (by omega)
    rw [List.drop_zero, List.nil_append, Nat.zero_add] at hloop
    simp only [intSplitter]
    rw [hloop, hsum]
    simp
  refine ⟨mkBytestringSplitter_ints ns hne, ?_, ?_, ?_⟩
  · rw [callSplitter, hsplit]
    simp
  · exact contiguousSlices_map_length b ns (le_of_eq hsum)
  · rw [contiguousSlices_flatten, hsum, List.take_length]

/-- Witness for `fixed_lengths_roundtrip`: the spec's concrete scenario
`b"hello world"` with lengths `(5, 1, 5)`. -/
theorem fixed_lengths_roundtrip_witness :
    mkBytestringSplitter ([5, 1, 5].map MessageParam.int) =
      .ok (intSplitter [5, 1, 5]) ∧
    callSplitter (intSplitter [5, 1, 5])
        [104, 101, 108, 108, 111, 32, 119, 111, 114, 108, 100] false =
      .ok (contiguousSlices
        [104, 101, 108, 108, 111, 32, 119, 111, 114, 108, 100] [5, 1, 5]) ∧
    (contiguousSlices
        [104, 101, 108, 108, 111, 32, 119, 111, 114, 108, 100]
        [5, 1, 5]).map List.length = [5, 1, 5] ∧
    (contiguousSlices
        [104, 101, 108, 108, 111, 32, 119, 111, 114, 108, 100]
        [5, 1, 5]).flatten =
      [104, 101, 108, 108, 111, 32, 119, 111, 114, 108, 100] :=
  fixed_lengths_roundtrip [5, 1, 5]
    [104, 101, 108, 108, 111, 32, 119, 111, 114, 108, 100]
    (by decide) (by decide) (by decide)

/-! ## Claim C4: bundle / dispense round trip -/

theorem exceptBind_ok {ε α β : Type} (a : α) (f : α → Except ε β) :
    (Except.ok a >>= f) = f a := rfl

theorem exceptBind_error {ε α β : Type} (e : ε) (f : α → Except ε β) :
    ((Except.error e : Except ε α) >>= f) = .error e := rfl

/-- The byte stream `bundle` wraps: the concatenation of the individually
length-prefixed items. -/
def encodeAll (items : List (List Nat)) : List Nat :=
  (items.map fun i => vlbBytes ⟨i⟩).flatten

theorem encodeAll_cons (x : List Nat) (xs : List (List Nat)) :
    encodeAll (x :: xs) = vlbBytes ⟨x⟩ ++ encodeAll xs := by
  rw [encodeAll, List.map_cons, List.flatten_cons, encodeAll]

theorem vlbBytes_length (v : VariableLengthBytestring) :
    (vlbBytes v).length = VARIABLE_HEADER_LENGTH + v.messageAsBytes.length := by
  rw [vlbBytes, List.length_append, toBytesBE_length]

theorem encodeAll_length_ge (items : List (List Nat)) :
    items.length ≤ (encodeAll items).length := by
  induction items with
  | nil => simp [encodeAll]
  | cons x xs ih =>
    rw [encodeAll_cons, List.length_append, vlbBytes_length]
    rw [List.length_cons]
    have : (0 : Nat) < VARIABLE_HEADER_LENGTH := by decide
    omega

theorem encodeAll_ne_nil (x : List Nat) (xs : List (List Nat)) :
    encodeAll (x :: xs) ≠ [] := by
  intro hcontra
  have hlen := congrArg List.length hcontra
  rw [encodeAll_cons, List.length_append, vlbBytes_length] at hlen
  have h4 : VARIABLE_HEADER_LENGTH = 4 := rfl
  rw [h4] at hlen
  simp at hlen

theorem mapM_mkVLB_ok (items : List (List Nat))
    (vs : List VariableLengthBytestring) (h : items.mapM mkVLB = .ok vs) :
    vs = items.map (fun i => ⟨i⟩) ∧
    ∀ i ∈ items, i.length < 256 ^ VARIABLE_HEADER_LENGTH := by
  induction items generalizing vs with
  | nil =>
    rw [List.mapM_nil] at h
    cases h
    exact ⟨rfl, by simp⟩
  | cons x xs ih =>
    rw [List.mapM_cons] at h
    cases hmk : mkVLB x with
    | error e => rw [hmk, exceptBind_error] at h; cases h
    | ok v =>
      rw [hmk, exceptBind_ok] at h
      cases hrest : xs.mapM mkVLB with
      | error e => rw [hrest, exceptBind_error] at h; cases h
      | ok vs' =>
        rw [hrest, exceptBind_ok] at h
        cases h
        obtain ⟨hvs', hsmall⟩ := ih vs' hrest
        rw [mkVLB] at hmk
        by_cases hx : x.length < 256 ^ VARIABLE_HEADER_LENGTH
        · rw [if_pos hx] at hmk
          cases hmk
          refine ⟨by rw [List.map_cons, hvs'], ?_⟩
          intro i hi
          rcases List.mem_cons.mp hi with hi | hi
          · rw [hi]; exact hx
          · exact hsmall i hi
        · rw [if_neg hx] at hmk
          cases hmk

theorem bundle_ok (items : List (List Nat)) (v : VariableLengthBytestring)
    (h : bundle items = .ok v) :
    v.messageAsBytes = encodeAll items ∧
    (encodeAll items).length < 256 ^ VARIABLE_HEADER_LENGTH ∧
    ∀ i ∈ items, i.length < 256 ^ VARIABLE_HEADER_LENGTH := by
  rw [bundle] at h
  cases hm : items.mapM mkVLB with
  | error e => rw [hm] at h; cases h
  | ok vs =>
    rw [hm] at h
    obtain ⟨hvs, hsmall⟩ := mapM_mkVLB_ok items vs hm
    subst hvs
    simp only [List.map_map] at h
    rw [mkVLB] at h
    by_cases htot :
        ((items.map (vlbBytes ∘ fun i => ⟨i⟩)).flatten).length <
          256 ^ VARIABLE_HEADER_LENGTH
    · rw [if_pos htot] at h
      cases h
      exact ⟨rfl, htot, hsmall⟩
    · rw [if_neg htot] at h
      cases h

/-- One iteration of the repeated variable-length parse: against a buffer
that starts with one well-formed length-prefixed item, `actually_split`
returns that item's payload and leaves exactly the trailing bytes. -/
theorem actuallySplit_vlb_step (m rest : List Nat)
    (h : m.length < 256 ^ VARIABLE_HEADER_LENGTH) :
    actuallySplit vlbSplitter (vlbBytes ⟨m⟩ ++ rest) true false =
      .ok ([m], rest) := by
  have hlen4 : (toBytesBE VARIABLE_HEADER_LENGTH m.length).length =
      VARIABLE_HEADER_LENGTH := toBytesBE_length _ _
  have hb : vlbBytes ⟨m⟩ ++ rest =
      toBytesBE VARIABLE_HEADER_LENGTH m.length ++ (m ++ rest) := by
    rw [vlbBytes, List.append_assoc]
  have hloop : splitLoop (vlbBytes ⟨m⟩ ++ rest)
      [⟨none, .vlb, .variable⟩] 0 [] =
      .ok ([m], VARIABLE_HEADER_LENGTH + m.length) := by
    rw [splitLoop]
    simp only [resolveLength, readVariableLength, List.drop_zero]
    rw [hb, List.take_left' hlen4, fromBytesBE_toBytesBE _ _ h]
    have hnogt : ¬(m.length >
        (toBytesBE VARIABLE_HEADER_LENGTH m.length ++ (m ++ rest)).length) := by
      rw [List.length_append, List.length_append]
      omega
    rw [if_neg hnogt]
    rw [Nat.zero_add, List.drop_left' hlen4, List.take_left]
    simp [produceValue, h, splitLoop]
  rw [actuallySplit]
  rw [if_neg (by simp [vlbSplitter])]
  rw [if_neg (by simp [vlbSplitter])]
  have hmts : vlbSplitter.messageTypes = [⟨none, .vlb, .variable⟩] := rfl
  rw [hmts, hloop]
  have hrem : (vlbBytes ⟨m⟩ ++ rest).drop
      (VARIABLE_HEADER_LENGTH + m.length) = rest := by
    have hlen2 : (vlbBytes ⟨m⟩).length = VARIABLE_HEADER_LENGTH + m.length :=
      vlbBytes_length ⟨m⟩
    rw [List.drop_left' hlen2]
  simp [hrem]

theorem repeatVLB_succ (f : Nat) (splittable : List Nat)
    (objs : List (List Nat)) (rem : List Nat)
    (h : actuallySplit vlbSplitter splittable true false = .ok (objs, rem)) :
    repeatVLB (f + 1) splittable =
      (if rem = [] then .ok [objs.headD []]
       else
        match repeatVLB f rem with
        | .error e => .error e
        | .ok rest => .ok (objs.headD [] :: rest)) := by
  rw [repeatVLB, h]

/-- The `repeat` loop on a concatenation of well-formed length-prefixed
items peels them off one per iteration. -/
theorem repeatVLB_encodeAll (items : List (List Nat)) (fuel : Nat)
    (hne : items ≠ [])
    (hsmall : ∀ i ∈ items, i.length < 256 ^ VARIABLE_HEADER_LENGTH)
    (hfuel : items.length ≤ fuel) :
    repeatVLB fuel (encodeAll items) = .ok items := by
  induction items generalizing fuel with
  | nil => exact absurd rfl hne
  | cons x xs ih =>
    cases fuel with
    | zero => simp at hfuel
    | succ f =>
      have hstep := actuallySplit_vlb_step x (encodeAll xs)
        (hsmall x (List.mem_cons_self x xs))
      rw [← encodeAll_cons] at hstep
      rw [repeatVLB_succ f (encodeAll (x :: xs)) [x] (encodeAll xs) hstep]
      cases xs with
      | nil => rfl
      | cons y ys =>
        have hne2 : encodeAll (y :: ys) ≠ [] := encodeAll_ne_nil y ys
        have hrec : repeatVLB f (encodeAll (y :: ys)) = .ok (y :: ys) := by
          refine ih f (by simp) ?_ ?_
          · intro i hi
            exact hsmall i (List.mem_cons_of_mem x hi)
          · simp only [List.length_cons] at hfuel ⊢
            omega
        rw [if_neg hne2, hrec]
        rfl

/-- C4 (amended): for every *non-empty* sequence of byte strings for which
bundling succeeds, `dispense(bytes(bundle(items)))` returns exactly the
items, in order. -/
theorem bundle_dispense_roundtrip (items : List (List Nat))
    (v : VariableLengthBytestring) (hne : items ≠ [])
    (hb : bundle items = .ok v) :
    dispense (vlbBytes v) = .ok items := by
  obtain ⟨hpayload, htot, hsmall⟩ := bundle_ok items v hb
  rw [dispense, vlbBytes]
  rw [List.take_left' (toBytesBE_length _ _),
    List.drop_left' (toBytesBE_length _ _)]
  have hvlen : v.messageAsBytes.length < 256 ^ VARIABLE_HEADER_LENGTH := by
    rw [hpayload]; exact htot
  rw [fromBytesBE_toBytesBE _ _ hvlen]
  rw [if_neg (by simp)]
  rw [hpayload]
  rw [repeatVLB_encodeAll items _ hne hsmall
    (by have := encodeAll_length_ge items; omega)]

/-- Witness for `bundle_dispense_roundtrip`: the two-item bundle
`[[1, 2], [3]]`, whose wire form is
`[0,0,0,2,1,2] ++ [0,0,0,1,3]` under an 11-byte outer prefix. -/
theorem bundle_dispense_roundtrip_witness :
    dispense (vlbBytes ⟨[0, 0, 0, 2, 1, 2, 0, 0, 0, 1, 3]⟩) =
      .ok [[1, 2], [3]] :=
  bundle_dispense_roundtrip [[1, 2], [3]] ⟨[0, 0, 0, 2, 1, 2, 0, 0, 0, 1, 3]⟩
    (by decide) (by decide)

/-- C4 (counterexample): for the *empty* sequence the round trip fails —
`bundle([])` serializes to a bare zero length prefix, and `dispense` of
that runs one `repeat` iteration on the empty payload, producing a single
empty byte string rather than an empty sequence. -/
theorem bundle_dispense_empty_counterexample :
    (do
      let v ← bundle ([] : List (List Nat))
      dispense (vlbBytes v)) = .ok [[]] ∧
    ([[]] : List (List Nat)) ≠ [] := by
  constructor
  · decide
  · decide

/-! ## Claim C5: header strip/assign symmetry -/

theorem pyToBytes_length (w n : Nat) (s : List Nat)
    (h : pyToBytes w n = some s) : s.length = w := by
  rw [pyToBytes] at h
  by_cases hb : n < 256 ^ w
  · rw [if_pos hb] at h
    cases h
    exact toBytesBE_length w n
  · rw [if_neg hb] at h
    cases h

theorem stripGo_append (xs ys : List HeaderMixin) (b : List Nat) :
    stripGo (xs ++ ys) b = stripGo ys (stripGo xs b) := by
  induction xs generalizing b with
  | nil => rfl
  | cons m rest ih => rw [List.cons_append, stripGo, stripGo, ih]

/-- Stripping undoes what the (reversed-order) assign loop prepended, as
long as every serialized header has its mixin's declared length. -/
theorem assignGo_strip (ca : KwArgs) (ms : List HeaderMixin) (kw : KwArgs)
    (b out : List Nat)
    (hser : ∀ m ∈ ms, ∀ v s, m.serialize v = some s → s.length = m.headerLen)
    (h : assignGo ca ms kw b = .ok out) :
    stripGo ms.reverse out = b := by
  induction ms generalizing kw b with
  | nil =>
    rw [assignGo] at h
    cases h
    rfl
  | cons m rest ih =>
    rw [assignGo] at h
    split at h
    · cases h
    · rename_i b' hone
      rw [assignOne] at hone
      split at hone
      · cases hone
      · rename_i d hres
        split at hone
        · cases hone
        · rename_i s hs
          cases hone
          have hstrip := ih (updateKw ca kw m) (s ++ b)
            (fun m' hm' => hser m' (List.mem_cons_of_mem m hm')) h
          rw [List.reverse_cons, stripGo_append, hstrip]
          rw [stripGo, stripGo]
          rw [List.drop_left' (hser m (List.mem_cons_self m rest) d s hs)]

/-- C5: for every header chain whose serializers emit exactly their
declared header lengths, `strip_metadata(assign_metadata(buffer, **values))`
recovers the buffer whenever the assignment succeeds. -/
theorem header_strip_assign_symmetry (chain : List HeaderMixin)
    (ca kw : KwArgs) (b out : List Nat)
    (hser : ∀ m ∈ chain, ∀ v s, m.serialize v = some s →
        s.length = m.headerLen)
    (h : assignMetadata chain ca kw b = .ok out) :
    stripMetadata chain out = b := by
  have := assignGo_strip ca chain.reverse kw b out
    (fun m hm => hser m (List.mem_reverse.mp hm)) h
  rw [List.reverse_reverse] at this
  rw [stripMetadata]
  exact this

/-- A second versioning-style mixin used by the chain witnesses: a 4-byte
big-endian integer header under a different tag. -/
def epochMixin : HeaderMixin :=
  ⟨"epoch", 4,
   fun v => match v with
     | .int n => pyToBytes 4 n
     | .bytes _ => none,
   none, none⟩

/-- Witness for `header_strip_assign_symmetry`: a two-mixin chain
(2-byte version, 4-byte epoch) with explicit values `version = 2`,
`epoch = 7` around the payload `[1, 2, 3]`. -/
theorem header_strip_assign_symmetry_witness :
    stripMetadata [versioningMixin, epochMixin]
      [0, 2, 0, 0, 0, 7, 1, 2, 3] = [1, 2, 3] :=
  header_strip_assign_symmetry [versioningMixin, epochMixin]
    (fun _ => none)
    (fun t => if t = "version" then some (.int 2)
              else if t = "epoch" then some (.int 7) else none)
    [1, 2, 3] [0, 2, 0, 0, 0, 7, 1, 2, 3]
    (by
      intro m hm v s hs
      rcases List.mem_cons.mp hm with hm | hm
      · subst hm
        cases v with
        | int n => exact pyToBytes_length 2 n s hs
        | bytes bb => cases hs
      · rcases List.mem_cons.mp hm with hm | hm
        · subst hm
          cases v with
          | int n => exact pyToBytes_length 4 n s hs
          | bytes bb => cases hs
        · cases hm)
    (by decide)

/-! ## Claim C6: header value resolution -/

theorem truthyOpt_ne_none (o : Option HVal) (h : truthyOpt o = true) :
    o ≠ none := by
  intro hn
  rw [hn] at h
  cases h

/-- `_assign_metadata` raises the could-not-determine error exactly when
the `or`-chain resolution comes up empty. -/
theorem assignOne_couldNotDetermine_iff (m : HeaderMixin) (kw : KwArgs)
    (b : List Nat) :
    assignOne m kw b = .error (.couldNotDetermine m.tag) ↔
      resolveData m kw = none := by
  rw [assignOne]
  cases hres : resolveData m kw with
  | none => simp
  | some d =>
    cases hs : m.serialize d with
    | none => simp [hs]
    | some s => simp [hs]

/-- The `or`-chain resolves to nothing exactly when every candidate is
falsy or absent (Python truthiness, so an explicit `0` or `b''` counts as
absent). -/
theorem resolveData_none_iff (m : HeaderMixin) (kw : KwArgs) :
    resolveData m kw = none ↔
      truthyOpt (kw m.tag) = false ∧ truthyOpt m.inputAttr = false ∧
      truthyOpt m.classAttr = false := by
  rw [resolveData]
  split_ifs with h1 h2 h3
  · constructor
    · intro h
      exact absurd h (truthyOpt_ne_none _ h1)
    · intro hconj
      rw [h1] at hconj
      cases hconj.1
  · constructor
    · intro h
      exact absurd h (truthyOpt_ne_none _ h2)
    · intro hconj
      rw [h2] at hconj
      cases hconj.2.1
  · constructor
    · intro h
      exact absurd h (truthyOpt_ne_none _ h3)
    · intro hconj
      rw [h3] at hconj
      cases hconj.2.2
  · rw [Bool.not_eq_true] at h1 h2 h3
    simp [h1, h2, h3]

/-- The kwargs update of `assign_metadata` leaves the tag untruthy exactly
when both the supplied kwarg and the composed-class attribute are falsy or
absent. -/
theorem updateKw_tag_untruthy (ca kw : KwArgs) (m : HeaderMixin) :
    truthyOpt ((updateKw ca kw m) m.tag) = false ↔
      truthyOpt (kw m.tag) = false ∧ truthyOpt (ca m.tag) = false := by
  rw [updateKw]
  by_cases hcond : ((ca m.tag).isSome && !truthyOpt (kw m.tag)) = true
  · rw [if_pos hcond]
    have hconj := hcond
    rw [Bool.and_eq_true, Bool.not_eq_true'] at hconj
    obtain ⟨hsome, hkwn⟩ := hconj
    show truthyOpt (if m.tag = m.tag then ca m.tag else kw m.tag) = false ↔ _
    rw [if_pos rfl]
    constructor
    · intro h
      exact ⟨hkwn, h⟩
    · intro hconj
      exact hconj.2
  · rw [if_neg hcond]
    constructor
    · intro h
      refine ⟨h, ?_⟩
      cases hca : ca m.tag with
      | none => rfl
      | some c =>
        exfalso
        apply hcond
        rw [hca, h]
        rfl
    · intro hconj
      exact hconj.1

/-- `assign_metadata` over a single-mixin chain is exactly one
`_assign_metadata` call on the updated kwargs. -/
theorem assignMetadata_single (m : HeaderMixin) (ca kw : KwArgs)
    (b : List Nat) :
    assignMetadata [m] ca kw b = assignOne m (updateKw ca kw m) b := by
  rw [assignMetadata]
  show assignGo ca [m] kw b = _
  rw [assignGo]
  split
  · rename_i e heq
    exact heq.symm
  · rename_i b' heq
    exact heq.symm

/-- C6 (amended): in `assign_metadata`/`_assign_metadata` a field's value
is resolved as the first *truthy* candidate of explicit keyword argument →
composed-class override → class-level `_input` attribute → class-level
default, and the could-not-determine error is raised exactly when every
one of them is falsy or absent.  In particular a *truthy* explicit keyword
value is always serialized and prepended, but an explicit falsy value
(such as `0`) is treated as unsupplied. -/
theorem assign_resolution (m : HeaderMixin) (ca kw : KwArgs) (b : List Nat) :
    (∀ v, kw m.tag = some v → v.truthy = true →
        assignMetadata [m] ca kw b =
          (match m.serialize v with
           | some s => .ok (s ++ b)
           | none => .error (.serializeFailed m.tag))) ∧
    (assignMetadata [m] ca kw b = .error (.couldNotDetermine m.tag) ↔
      truthyOpt (kw m.tag) = false ∧ truthyOpt (ca m.tag) = false ∧
      truthyOpt m.inputAttr = false ∧ truthyOpt m.classAttr = false) := by
  constructor
  · intro v hv htruthy
    have hkw : truthyOpt (kw m.tag) = true := by
      rw [hv]
      exact htruthy
    have hupd : updateKw ca kw m = kw := by
      rw [updateKw, if_neg]
      rw [hkw]
      simp
    rw [assignMetadata_single, hupd, assignOne, resolveData, if_pos hkw, hv]
    cases hs : m.serialize v with
    | none => simp [hs]
    | some s => simp [hs]
  · rw [assignMetadata_single, assignOne_couldNotDetermine_iff,
      resolveData_none_iff, updateKw_tag_untruthy]
    exact and_assoc

/-- Witness for `assign_resolution`: a versioning mixin with an explicit
truthy `version = 2` (serialized and prepended), and the error condition
evaluated on all-absent values. -/
theorem assign_resolution_witness :
    assignMetadata [versioningMixin] (fun _ => none)
      (fun t => if t = "version" then some (.int 2) else none) [5] =
      .ok [0, 2, 5] ∧
    (assignMetadata [versioningMixin] (fun _ => none) (fun _ => none) [5] =
      .error (.couldNotDetermine "version") ↔ True) :=
  ⟨((assign_resolution versioningMixin (fun _ => none)
      (fun t => if t = "version" then some (.int 2) else none) [5]).1
      (.int 2) (by decide) (by decide)).trans (by decide),
   iff_of_true
     (((assign_resolution versioningMixin (fun _ => none)
        (fun _ => none) [5]).2).mpr (by decide))
     trivial⟩

/-- C6 (counterexample): an explicit keyword value `version = 0` is
supplied, yet `assign_metadata` raises the could-not-determine error
instead of serializing and prepending `0`, because the `or`-chain skips
falsy values. -/
theorem assign_falsy_kwarg_counterexample :
    assignMetadata [versioningMixin] (fun _ => none)
      (fun t => if t = "version" then some (.int 0) else none) [5] =
      .error (.couldNotDetermine "version") := by decide

end BytestringSplitterModel
